import Mathlib

/-!
Shallow embedding of `_stbt/pylint_plugin.py` (the stb-tester pylint
checker).  The checker visits constant nodes and call nodes of an astroid
syntax tree and emits diagnostics E7001..E7004.  We model the node
attributes the checker actually reads (string values, `as_string()` texts,
`infer()` results, parent kind, ancestor chain) and translate each Python
function into a Lean function of the same name.
-/

namespace StbtLint

/-- A resolved function definition, as the checker reads it: `funcdef.name`,
`funcdef.parent.name`, `funcdef.root().name` and `funcdef.argnames()`. -/
structure FunctionDef where
  name : String
  parentName : String
  rootName : String
  argnames : List String
  deriving DecidableEq, Repr

/-- One value yielded by astroid's `node.infer()`: the `YES` sentinel, a
function definition, or some other inferred object carrying its
`root().name` and its `callable()` answer.  (astroid's `FunctionDef.callable()`
is always true.) -/
inductive Inferred where
  | yes
  | funcdef (fd : FunctionDef)
  | other (rootName : String) (callableB : Bool)
  deriving DecidableEq, Repr

def Inferred.isYes : Inferred → Bool
  | .yes => true
  | _ => false

/-- `inferred.callable()`; the `YES` sentinel answers true to everything. -/
def Inferred.callable : Inferred → Bool
  | .yes => true
  | .funcdef _ => true
  | .other _ b => b

/-- `inferred.root().name`. -/
def Inferred.rootName : Inferred → String
  | .yes => ""
  | .funcdef fd => fd.rootName
  | .other r _ => r

/-- An expression node as the checker reads it: its `as_string()` text, the
outcome of `node.infer()` (`none` models the resolver raising an exception,
`some l` the yielded sequence, which may contain the `YES` sentinel), and,
when the node is a `Call`, its `func` child. -/
inductive ExprNode where
  | mk (asString : String) (inferRaw : Option (List Inferred))
       (callFunc : Option ExprNode)

def ExprNode.asString : ExprNode → String
  | .mk s _ _ => s

def ExprNode.inferRaw : ExprNode → Option (List Inferred)
  | .mk _ r _ => r

def ExprNode.callFunc : ExprNode → Option ExprNode
  | .mk _ _ c => c

/-- The syntactic kind of `node.parent` that the checker distinguishes:
`BinOp`, `Call` (with its `func` child), expression statement (`Expr`),
assert / assignment / return statements, or anything else. -/
inductive ParentKind where
  | binOp
  | call (func : ExprNode)
  | exprStmt
  | assertStmt
  | assignStmt
  | returnStmt
  | otherParent

/-- One ancestor on the `parent` chain of a node, as seen by the upward
walks: a class definition with the qualified names of its (transitive)
`ancestors()`, a function definition with its `decoratornames()`, or any
other node. -/
inductive CtxNode where
  | classdef (ancestorQnames : List String)
  | funcdef (decoratornames : List String)
  | otherNode
  deriving DecidableEq, Repr

/-- `node.value` of a Const node: a text string or some non-string value. -/
inductive Value where
  | str (s : String)
  | nonStr
  deriving DecidableEq, Repr

/-- A Const node: its value, its parent's kind, and the directory of its
root module's file (`os.path.dirname(node.root().file)`). -/
structure ConstNode where
  value : Value
  parent : ParentKind
  rootDir : String

/-- A Call node: `node.func`, the positional `node.args`, the names of
`node.keywords`, `node.parent`'s kind, `node.as_string()`, and the chain of
`parent` links from the node to the tree root. -/
structure CallNode where
  func : ExprNode
  args : List ExprNode
  keywords : List String
  parent : ParentKind
  asString : String
  ctx : List CtxNode

/-- The filesystem as `os.path.isfile` sees it at analysis time. -/
structure Env where
  isFile : String → Bool

/-- `os.path.join` for the two-argument uses in the plugin. -/
def joinPath (a b : String) : String :=
  if b.startsWith "/" then b
  else if a = "" then b
  else if a.endsWith "/" then a ++ b
  else a ++ "/" ++ b

/-- A diagnostic: message code plus its `%s` argument. -/
inductive Diagnostic where
  | e7001 (arg : String)
  | e7002 (arg : String)
  | e7003 (arg : String)
  | e7004 (arg : String)
  deriving DecidableEq, Repr

def isE7001 : Diagnostic → Bool
  | .e7001 _ => true
  | _ => false

def isE7002 : Diagnostic → Bool
  | .e7002 _ => true
  | _ => false

def isE7003 : Diagnostic → Bool
  | .e7003 _ => true
  | _ => false

def isE7004 : Diagnostic → Bool
  | .e7004 _ => true
  | _ => false

/-- Python's `c in v` on a one-character needle. -/
def strContains (v : String) (c : Char) : Bool := v.toList.contains c

/-- Python's `s.split(".")[-1]`: the text after the last `.` (the whole
string when there is no `.`). -/
def lastDotComponent (s : String) : String :=
  String.mk ((s.toList.reverse.takeWhile (fun c => c != '.')).reverse)

/-! ### Regular expressions used by the checker -/

/-- A regex word character (`\w`): letter, digit or underscore. -/
def isWordChar (c : Char) : Bool := c.isAlphanum || c == '_'

/-- Does the list end in `c ++ ".png"` with `c` a `.`-matchable character?
This is `.+\.png` anchored at the very end of the input. -/
def pngAtEnd (l : List Char) : Bool :=
  match l.reverse with
  | 'g' :: 'n' :: 'p' :: '.' :: c :: _ => c != '\n'
  | _ => false

/-- `re.search(r'.+\.png$', v)`: the `$` matches at the end of the string
or just before a trailing newline. -/
def reSearchPng (v : String) : Bool :=
  let l := v.toList
  pngAtEnd l ||
    (match l.reverse with
     | '\n' :: rest => pngAtEnd rest.reverse
     | _ => false)

/-- Does `tok` occur in the remaining input at a position preceded by a word
boundary?  `prev` is the character just before the remaining input. -/
def bsearchTok (tok : List Char) : Option Char → List Char → Bool
  | prev, [] =>
      (match prev with | none => true | some c => !(isWordChar c)) &&
        tok.isPrefixOf ([] : List Char)
  | prev, c :: rest =>
      ((match prev with | none => true | some p => !(isWordChar p)) &&
        tok.isPrefixOf (c :: rest)) ||
      bsearchTok tok (some c) rest

/-- `re.search(r"\bwait_until", s)`. -/
def containsWaitUntil (s : String) : Bool :=
  bsearchTok "wait_until".toList none s.toList

/-- Does the list end with `name`, preceded by a word boundary?  This is
`\b<name>$` for a word-made `name`. -/
def endsWithTok (name : String) (l : List Char) : Bool :=
  let r := l.reverse
  let nr := name.toList.reverse
  nr.isPrefixOf r &&
    (match r.drop nr.length with
     | [] => true
     | c :: _ => !(isWordChar c))

/-- `re.search(r"\b(is_screen_black|match|match_text|ocr|wait_until)$", s)`. -/
def endsWithCheckedName (s : String) : Bool :=
  ["is_screen_black", "match", "match_text", "ocr", "wait_until"].any
    (fun nm => endsWithTok nm s.toList)

/-! ### The helper functions of the plugin -/

/-- `_infer(node)`: iterate `node.infer()`, skipping the `YES` sentinel;
an exception from the resolver yields the empty sequence. -/
def _infer (e : ExprNode) : List Inferred :=
  match e.inferRaw with
  | none => []
  | some l => l.filter (fun i => !(i.isYes))

/-- `_is_function_named(func, name)`. -/
def _is_function_named (func : ExprNode) (name : String) : Bool :=
  func.asString == name ||
    (_infer func).any (fun i =>
      match i with
      | .funcdef fd => (fd.parentName ++ "." ++ fd.name) == name
      | _ => false)

/-- `_is_callable(node)`. -/
def _is_callable (node : ExprNode) : Bool :=
  let inferred := _infer node
  if inferred.isEmpty then
    match node.callFunc with
    | some f => _is_function_named f "functools.partial"
    | none => false
  else
    inferred.any (fun i => i.callable)

/-- `_in_frameobject(node)`: walk the parent chain; at every class
definition met, test whether `stbt.FrameObject` is among its ancestors'
qualified names. -/
def _in_frameobject : List CtxNode → Bool
  | [] => false
  | CtxNode.classdef qnames :: rest =>
      if "stbt.FrameObject" ∈ qnames then true else _in_frameobject rest
  | CtxNode.funcdef _ :: rest => _in_frameobject rest
  | CtxNode.otherNode :: rest => _in_frameobject rest

/-- `_in_property(node)`: walk the parent chain; at every function
definition met, test whether `__builtin__.property` is among its decorator
names. -/
def _in_property : List CtxNode → Bool
  | [] => false
  | CtxNode.funcdef decs :: rest =>
      if "__builtin__.property" ∈ decs then true else _in_property rest
  | CtxNode.classdef _ :: rest => _in_property rest
  | CtxNode.otherNode :: rest => _in_property rest

/-- `_is_calculated_value(node)`. -/
def _is_calculated_value (n : ConstNode) : Bool :=
  match n.parent with
  | ParentKind.binOp => true
  | ParentKind.call f => lastDotComponent f.asString == "join"
  | _ => false

/-- `_is_pattern_value(node)`: `re.search(r'\*', node.value)`. -/
def _is_pattern_value (v : String) : Bool := strContains v '*'

/-- `_is_whitelisted_name(filename)`. -/
def _is_whitelisted_name (filename : String) : Bool :=
  filename == "screenshot.png"

/-- `_in_whitelisted_functions(node)`. -/
def _in_whitelisted_functions (n : ConstNode) : Bool :=
  match n.parent with
  | ParentKind.call f =>
      ["cv2.imwrite", "re.match", "re.search", "stbt.save_frame",
       "_stbt.core.save_frame"].any (fun x => _is_function_named f x)
  | _ => false

/-- `_file_exists(filename, node)`. -/
def _file_exists (env : Env) (filename : String) (n : ConstNode) : Bool :=
  env.isFile (joinPath n.rootDir filename)

/-! ### The two visitor entry points -/

/-- `StbtChecker.visit_const`: the E7001 (missing image) rule. -/
def visit_const (env : Env) (n : ConstNode) : List Diagnostic :=
  match n.value with
  | Value.str v =>
      if reSearchPng v && !(strContains v '\n') && !(_is_calculated_value n) &&
         !(_is_pattern_value v) && !(_is_whitelisted_name v) &&
         !(_in_whitelisted_functions n) && !(_file_exists env v n) then
        [Diagnostic.e7001 v]
      else []
  | Value.nonStr => []

/-- The test on one inferred candidate inside the E7002 loop:
`inferred.root().name in ('stbt', '_stbt.core')`. -/
def unusedReturnCandidate (i : Inferred) : Bool :=
  i.rootName == "stbt" || i.rootName == "_stbt.core"

/-- The first paragraph of `visit_callfunc`: one E7002 message per inferred
candidate rooted in the stbt library, when the callee text ends in a checked
name and the parent is an expression statement. -/
def unusedReturnMessages (n : CallNode) : List Diagnostic :=
  if endsWithCheckedName n.func.asString then
    match n.parent with
    | ParentKind.exprStmt =>
        ((_infer n.func).filter unusedReturnCandidate).map
          (fun _ => Diagnostic.e7002 n.func.asString)
    | _ => []
  else []

/-- The second paragraph of `visit_callfunc`: the E7003 message when the
callee text contains `wait_until` and the first positional argument is not
callable. -/
def waitUntilMessages (n : CallNode) : List Diagnostic :=
  if containsWaitUntil n.func.asString then
    match n.args with
    | [] => []
    | arg :: _ =>
        if _is_callable arg then [] else [Diagnostic.e7003 arg.asString]
  else []

/-- The test on one inferred candidate inside the E7004 loop: a function
definition with a `frame` parameter that the call leaves unsupplied. -/
def frameMissingFor (n : CallNode) (i : Inferred) : Bool :=
  match i with
  | Inferred.funcdef fd =>
      decide ("frame" ∈ fd.argnames) &&
      decide (n.args.length ≤ fd.argnames.indexOf "frame") &&
      !(decide ("frame" ∈ n.keywords))
  | _ => false

/-- The third paragraph of `visit_callfunc`: inside a FrameObject property,
one E7004 message per inferred function definition whose `frame` parameter
the call leaves unsupplied. -/
def frameMissingMessages (n : CallNode) : List Diagnostic :=
  if _in_frameobject n.ctx && _in_property n.ctx then
    ((_infer n.func).filter (frameMissingFor n)).map
      (fun _ => Diagnostic.e7004 n.asString)
  else []

/-- `StbtChecker.visit_callfunc`: the E7002, E7003 and E7004 rules, run in
source order on one call node. -/
def visit_callfunc (n : CallNode) : List Diagnostic :=
  unusedReturnMessages n ++ waitUntilMessages n ++ frameMissingMessages n

/-- The walk that the spec sentence for `in_property` describes: stop at the
first (innermost) enclosing function definition and judge by it alone. -/
def inPropertyInnermost : List CtxNode → Bool
  | [] => false
  | CtxNode.funcdef decs :: _ => "__builtin__.property" ∈ decs
  | CtxNode.classdef _ :: rest => inPropertyInnermost rest
  | CtxNode.otherNode :: rest => inPropertyInnermost rest

/-- The walk that the spec sentence for `in_marker_class` describes: stop at
the first (innermost) enclosing class definition and judge by it alone. -/
def inFrameobjectInnermost : List CtxNode → Bool
  | [] => false
  | CtxNode.classdef qnames :: _ => "stbt.FrameObject" ∈ qnames
  | CtxNode.funcdef _ :: rest => inFrameobjectInnermost rest
  | CtxNode.otherNode :: rest => inFrameobjectInnermost rest

/-! ### Shape lemmas about the three message blocks -/

lemma eq_e7002_of_mem_unusedReturnMessages {n : CallNode} {d : Diagnostic}
    (h : d ∈ unusedReturnMessages n) : d = Diagnostic.e7002 n.func.asString := by
  unfold unusedReturnMessages at h
  split at h
  · split at h
    · rcases List.mem_map.mp h with ⟨i, _, rfl⟩
      rfl
    · simp at h
  · simp at h

lemma mem_waitUntilMessages {n : CallNode} {d : Diagnostic}
    (h : d ∈ waitUntilMessages n) :
    ∃ a t, n.args = a :: t ∧ _is_callable a = false ∧
      d = Diagnostic.e7003 a.asString := by
  unfold waitUntilMessages at h
  split at h
  · split at h
    · simp at h
    · rename_i a t hargs
      split at h
      · simp at h
      · rename_i hcall
        simp only [List.mem_singleton] at h
        exact ⟨a, t, hargs, by simpa using hcall, h⟩
  · simp at h

lemma eq_e7004_of_mem_frameMissingMessages {n : CallNode} {d : Diagnostic}
    (h : d ∈ frameMissingMessages n) : d = Diagnostic.e7004 n.asString := by
  unfold frameMissingMessages at h
  split at h
  · rcases List.mem_map.mp h with ⟨i, _, rfl⟩
    rfl
  · simp at h

lemma unusedReturnMessages_eq_nil {n : CallNode}
    (h : n.parent ≠ ParentKind.exprStmt) : unusedReturnMessages n = [] := by
  cases hp : n.parent
  case exprStmt => exact absurd hp h
  all_goals simp [unusedReturnMessages, hp]

lemma countP_e7002_visit (n : CallNode) :
    (visit_callfunc n).countP isE7002 =
      (unusedReturnMessages n).countP isE7002 := by
  unfold visit_callfunc
  rw [List.countP_append, List.countP_append]
  have h2 : (waitUntilMessages n).countP isE7002 = 0 :=
    List.countP_eq_zero.mpr (by
      intro d hd
      rcases mem_waitUntilMessages hd with ⟨a, t, _, _, rfl⟩
      simp [isE7002])
  have h3 : (frameMissingMessages n).countP isE7002 = 0 :=
    List.countP_eq_zero.mpr (by
      intro d hd
      rw [eq_e7004_of_mem_frameMissingMessages hd]
      simp [isE7002])
  omega

lemma countP_e7003_visit (n : CallNode) :
    (visit_callfunc n).countP isE7003 =
      (waitUntilMessages n).countP isE7003 := by
  unfold visit_callfunc
  rw [List.countP_append, List.countP_append]
  have h1 : (unusedReturnMessages n).countP isE7003 = 0 :=
    List.countP_eq_zero.mpr (by
      intro d hd
      rw [eq_e7002_of_mem_unusedReturnMessages hd]
      simp [isE7003])
  have h3 : (frameMissingMessages n).countP isE7003 = 0 :=
    List.countP_eq_zero.mpr (by
      intro d hd
      rw [eq_e7004_of_mem_frameMissingMessages hd]
      simp [isE7003])
  omega

lemma countP_e7004_visit (n : CallNode) :
    (visit_callfunc n).countP isE7004 =
      (frameMissingMessages n).countP isE7004 := by
  unfold visit_callfunc
  rw [List.countP_append, List.countP_append]
  have h1 : (unusedReturnMessages n).countP isE7004 = 0 :=
    List.countP_eq_zero.mpr (by
      intro d hd
      rw [eq_e7002_of_mem_unusedReturnMessages hd]
      simp [isE7004])
  have h2 : (waitUntilMessages n).countP isE7004 = 0 :=
    List.countP_eq_zero.mpr (by
      intro d hd
      rcases mem_waitUntilMessages hd with ⟨a, t, _, _, rfl⟩
      simp [isE7004])
  omega

lemma countP_map_const {α : Type} (l : List α) (d : Diagnostic)
    (p : Diagnostic → Bool) :
    (l.map fun _ => d).countP p = if p d then l.length else 0 := by
  induction l with
  | nil => simp
  | cons a t ih =>
      simp only [List.map_cons, List.countP_cons, ih]
      cases hpd : p d <;> simp [hpd]

/-! ### Claim theorems -/

/-- C1: on a literal-constant node with a text value, `visit_const` emits
the E7001 diagnostic carrying the literal's exact text iff the value matches
`.+\.png$`, contains no line break, is not a calculated value, not a
pattern, not a whitelisted name, not an argument of a whitelisted caller,
and the file does not exist; if any conjunct fails (in particular if the
file exists) no diagnostic is produced. -/
theorem c1_missing_image_iff (env : Env) (n : ConstNode) (v : String)
    (h : n.value = Value.str v) :
    (visit_const env n = [Diagnostic.e7001 v] ↔
      (reSearchPng v = true ∧ strContains v '\n' = false ∧
       _is_calculated_value n = false ∧ _is_pattern_value v = false ∧
       _is_whitelisted_name v = false ∧ _in_whitelisted_functions n = false ∧
       _file_exists env v n = false)) ∧
    (¬ (reSearchPng v = true ∧ strContains v '\n' = false ∧
       _is_calculated_value n = false ∧ _is_pattern_value v = false ∧
       _is_whitelisted_name v = false ∧ _in_whitelisted_functions n = false ∧
       _file_exists env v n = false) →
      visit_const env n = []) := by
  have hv : visit_const env n =
      if reSearchPng v && !(strContains v '\n') && !(_is_calculated_value n) &&
         !(_is_pattern_value v) && !(_is_whitelisted_name v) &&
         !(_in_whitelisted_functions n) && !(_file_exists env v n) then
        [Diagnostic.e7001 v]
      else [] := by
    simp only [visit_const, h]
  have hprops :
      (reSearchPng v = true ∧ strContains v '\n' = false ∧
       _is_calculated_value n = false ∧ _is_pattern_value v = false ∧
       _is_whitelisted_name v = false ∧ _in_whitelisted_functions n = false ∧
       _file_exists env v n = false) ↔
      (reSearchPng v && !(strContains v '\n') && !(_is_calculated_value n) &&
       !(_is_pattern_value v) && !(_is_whitelisted_name v) &&
       !(_in_whitelisted_functions n) && !(_file_exists env v n)) = true := by
    simp only [Bool.and_eq_true, Bool.not_eq_true']
    tauto
  constructor
  · rw [hv, hprops]
    cases hb : (reSearchPng v && !(strContains v '\n') &&
        !(_is_calculated_value n) && !(_is_pattern_value v) &&
        !(_is_whitelisted_name v) && !(_in_whitelisted_functions n) &&
        !(_file_exists env v n)) <;> simp [hb]
  · rw [hv, hprops]
    cases hb : (reSearchPng v && !(strContains v '\n') &&
        !(_is_calculated_value n) && !(_is_pattern_value v) &&
        !(_is_whitelisted_name v) && !(_in_whitelisted_functions n) &&
        !(_file_exists env v n)) <;> simp [hb]

/-- C1 witness: a bare `"a.png"` literal, on a filesystem with no files,
yields exactly the E7001 diagnostic carrying `"a.png"`. -/
theorem c1_missing_image_iff_witness :
    visit_const ⟨fun _ => false⟩
        ⟨Value.str "a.png", ParentKind.otherParent, "/tests"⟩ =
      [Diagnostic.e7001 "a.png"] :=
  (c1_missing_image_iff ⟨fun _ => false⟩
      ⟨Value.str "a.png", ParentKind.otherParent, "/tests"⟩ "a.png" rfl).1.mpr
    (by decide)

/-- C10: a literal whose whole value is `".png"` is never flagged, whatever
the environment and the rest of the node: `.+\.png$` needs a character
before the suffix. -/
theorem c10_bare_png_never_flagged (env : Env) (n : ConstNode)
    (h : n.value = Value.str ".png") :
    visit_const env n = [] := by
  have hr : reSearchPng ".png" = false := by decide
  simp [visit_const, h, hr]

/-- C10 witness: the `".png"` literal at a node where every other conjunct
of the E7001 rule holds still yields no diagnostic. -/
theorem c10_bare_png_never_flagged_witness :
    visit_const ⟨fun _ => false⟩
      ⟨Value.str ".png", ParentKind.otherParent, "/tests"⟩ = [] :=
  c10_bare_png_never_flagged ⟨fun _ => false⟩
    ⟨Value.str ".png", ParentKind.otherParent, "/tests"⟩ rfl

/-- C2 counterexample: a single visit of one call node whose callee resolves
to two stbt-rooted candidates emits two E7002 diagnostics, so "at most one
diagnostic per rule per node within one visit" is false: the E7002 loop
does not stop after the first candidate. -/
theorem c2_counterexample :
    (visit_callfunc
        { func := ExprNode.mk "stbt.match"
            (some [Inferred.other "stbt" true, Inferred.other "stbt" true])
            none
          args := []
          keywords := []
          parent := ParentKind.exprStmt
          asString := "stbt.match()"
          ctx := [] }).countP isE7002 = 2 := by decide

/-- C2 (amended): within one visit, E7001 and E7003 each fire at most once,
but E7002 fires once per inferred stbt-rooted candidate and E7004 once per
inferred function definition missing its `frame` argument, so those two
rules can emit several diagnostics for one node. -/
theorem c2_per_rule_multiplicity (env : Env) (k : ConstNode) (n : CallNode) :
    (visit_const env k).length ≤ 1 ∧
    (visit_callfunc n).countP isE7003 ≤ 1 ∧
    (endsWithCheckedName n.func.asString = true →
      n.parent = ParentKind.exprStmt →
      (visit_callfunc n).countP isE7002 =
        (_infer n.func).countP unusedReturnCandidate) ∧
    (_in_frameobject n.ctx = true → _in_property n.ctx = true →
      (visit_callfunc n).countP isE7004 =
        (_infer n.func).countP (frameMissingFor n)) := by
  refine ⟨?_, ?_, ?_, ?_⟩
  · cases hv : k.value with
    | str v => simp only [visit_const, hv]; split <;> simp
    | nonStr => simp [visit_const, hv]
  · rw [countP_e7003_visit]
    have hlen : (waitUntilMessages n).length ≤ 1 := by
      unfold waitUntilMessages
      split
      · split
        · simp
        · split <;> simp
      · simp
    exact le_trans (List.countP_le_length _) hlen
  · intro hname hpar
    rw [countP_e7002_visit]
    simp only [unusedReturnMessages, hname, hpar, if_true]
    rw [countP_map_const]
    simp [isE7002, List.countP_eq_length_filter]
  · intro hcls hprop
    rw [countP_e7004_visit]
    simp only [frameMissingMessages, hcls, hprop, Bool.and_self, if_true]
    rw [countP_map_const]
    simp [isE7004, List.countP_eq_length_filter]

/-- C2 amended-claim witness: with a single stbt-rooted candidate the E7002
count equals the candidate count, namely one. -/
theorem c2_per_rule_multiplicity_witness :
    (visit_callfunc
        { func := ExprNode.mk "stbt.ocr" (some [Inferred.other "stbt" true])
            none
          args := []
          keywords := []
          parent := ParentKind.exprStmt
          asString := "stbt.ocr()"
          ctx := [] }).countP isE7002 = 1 := by
  have h := (c2_per_rule_multiplicity ⟨fun _ => false⟩
      ⟨Value.nonStr, ParentKind.otherParent, ""⟩
      { func := ExprNode.mk "stbt.ocr" (some [Inferred.other "stbt" true])
          none
        args := []
        keywords := []
        parent := ParentKind.exprStmt
        asString := "stbt.ocr()"
        ctx := [] }).2.2.1 (by decide) rfl
  rw [h]
  decide

/-- C3: when the callee text ends (at a word boundary) with one of
`is_screen_black`, `match`, `match_text`, `ocr`, `wait_until`, the call's
parent is a bare expression statement, and some inferred candidate has root
module `stbt` or `_stbt.core`, `visit_callfunc` emits an E7002 diagnostic
carrying the callee text; under an assert, an assignment or a return it
emits no E7002 diagnostic. -/
theorem c3_unused_return (n : CallNode)
    (hname : endsWithCheckedName n.func.asString = true) :
    ((n.parent = ParentKind.exprStmt ∧
      ∃ i, i ∈ _infer n.func ∧
        (i.rootName = "stbt" ∨ i.rootName = "_stbt.core")) →
      Diagnostic.e7002 n.func.asString ∈ visit_callfunc n) ∧
    ((n.parent = ParentKind.assertStmt ∨ n.parent = ParentKind.assignStmt ∨
      n.parent = ParentKind.returnStmt) →
      (visit_callfunc n).countP isE7002 = 0) := by
  constructor
  · rintro ⟨hpar, i, hi, hroot⟩
    have hcand : unusedReturnCandidate i = true := by
      rcases hroot with h1 | h1 <;> simp [unusedReturnCandidate, h1]
    have hmem : Diagnostic.e7002 n.func.asString ∈ unusedReturnMessages n := by
      simp only [unusedReturnMessages, hname, hpar, if_true]
      exact List.mem_map.mpr ⟨i, List.mem_filter.mpr ⟨hi, hcand⟩, rfl⟩
    unfold visit_callfunc
    exact List.mem_append_left _ (List.mem_append_left _ hmem)
  · intro hpar
    rw [countP_e7002_visit]
    have hnil : unusedReturnMessages n = [] := by
      rcases hpar with h1 | h1 | h1 <;>
        exact unusedReturnMessages_eq_nil (by rw [h1]; intro hc; cases hc)
    rw [hnil]
    rfl

/-- C3 witness: a bare statement `stbt.match(...)` whose callee resolves to
an stbt-rooted definition gets the E7002 diagnostic. -/
theorem c3_unused_return_witness :
    Diagnostic.e7002 "stbt.match" ∈ visit_callfunc
      { func := ExprNode.mk "stbt.match"
          (some [Inferred.other "stbt" true]) none
        args := []
        keywords := []
        parent := ParentKind.exprStmt
        asString := "stbt.match()"
        ctx := [] } :=
  (c3_unused_return _ (by decide)).1
    ⟨rfl, Inferred.other "stbt" true, by decide, Or.inl rfl⟩

/-- C4: for a call whose callee text contains `wait_until` (at a word
boundary) and that has a first positional argument, `visit_callfunc` emits
the E7003 diagnostic carrying that argument's text iff `_is_callable` is
false on it. -/
theorem c4_wait_until_not_callable (n : CallNode) (a : ExprNode)
    (hname : containsWaitUntil n.func.asString = true)
    (hfirst : n.args.head? = some a) :
    (Diagnostic.e7003 a.asString ∈ visit_callfunc n ↔
      _is_callable a = false) := by
  obtain ⟨t, hargs⟩ : ∃ t, n.args = a :: t := by
    cases hargsc : n.args with
    | nil => rw [hargsc] at hfirst; simp at hfirst
    | cons x t =>
        rw [hargsc] at hfirst
        simp only [List.head?_cons, Option.some.injEq] at hfirst
        subst hfirst
        exact ⟨t, rfl⟩
  constructor
  · intro hmem
    unfold visit_callfunc at hmem
    rcases List.mem_append.mp hmem with h12 | h3
    · rcases List.mem_append.mp h12 with h1 | h2
      · have := eq_e7002_of_mem_unusedReturnMessages h1
        cases this
      · rcases mem_waitUntilMessages h2 with ⟨a', t', hargs', hcall', heq⟩
        rw [hargs] at hargs'
        cases hargs'
        exact hcall'
    · have := eq_e7004_of_mem_frameMissingMessages h3
      cases this
  · intro hcall
    have hmem2 : Diagnostic.e7003 a.asString ∈ waitUntilMessages n := by
      simp [waitUntilMessages, hname, hargs, hcall]
    unfold visit_callfunc
    exact List.mem_append_left _ (List.mem_append_right _ hmem2)

/-- C4 witness: `wait_until("a")` with a string-literal first argument that
infers to a non-callable constant yields the E7003 diagnostic. -/
theorem c4_wait_until_not_callable_witness :
    Diagnostic.e7003 "'a'" ∈ visit_callfunc
      { func := ExprNode.mk "wait_until" none none
        args := [ExprNode.mk "'a'" (some [Inferred.other "builtins" false])
          none]
        keywords := []
        parent := ParentKind.exprStmt
        asString := "wait_until('a')"
        ctx := [] } :=
  (c4_wait_until_not_callable
      { func := ExprNode.mk "wait_until" none none
        args := [ExprNode.mk "'a'" (some [Inferred.other "builtins" false])
          none]
        keywords := []
        parent := ParentKind.exprStmt
        asString := "wait_until('a')"
        ctx := [] }
      (ExprNode.mk "'a'" (some [Inferred.other "builtins" false]) none)
      (by decide) rfl).mpr (by decide)

/-- C5: inside a FrameObject property, for an inferred function definition
with a `frame` parameter at position `index`, the call gets an E7004
diagnostic carrying its full text when it has at most `index` positional
arguments and no `frame` keyword; a `frame=` keyword always suppresses the
diagnostic, and (when that definition is the only candidate) so does
covering the `frame` position with positional arguments. -/
theorem c5_frame_missing (n : CallNode) (fd : FunctionDef)
    (hcls : _in_frameobject n.ctx = true)
    (hprop : _in_property n.ctx = true)
    (hmem : Inferred.funcdef fd ∈ _infer n.func)
    (hframe : "frame" ∈ fd.argnames) :
    ((n.args.length ≤ fd.argnames.indexOf "frame" ∧ "frame" ∉ n.keywords) →
      Diagnostic.e7004 n.asString ∈ visit_callfunc n) ∧
    ("frame" ∈ n.keywords → (visit_callfunc n).countP isE7004 = 0) ∧
    (_infer n.func = [Inferred.funcdef fd] →
      fd.argnames.indexOf "frame" < n.args.length →
      (visit_callfunc n).countP isE7004 = 0) := by
  refine ⟨?_, ?_, ?_⟩
  · rintro ⟨hle, hkw⟩
    have hf : frameMissingFor n (Inferred.funcdef fd) = true := by
      simp [frameMissingFor, hframe, hle, hkw]
    have hmem3 : Diagnostic.e7004 n.asString ∈ frameMissingMessages n := by
      simp only [frameMissingMessages, hcls, hprop, Bool.and_self, if_true]
      exact List.mem_map.mpr ⟨Inferred.funcdef fd,
        List.mem_filter.mpr ⟨hmem, hf⟩, rfl⟩
    unfold visit_callfunc
    exact List.mem_append_right _ hmem3
  · intro hkw
    rw [countP_e7004_visit]
    have hall : ∀ i ∈ _infer n.func, ¬(frameMissingFor n i = true) := by
      intro i _
      cases i <;> simp [frameMissingFor, hkw]
    have hfilter : (_infer n.func).filter (frameMissingFor n) = [] :=
      List.filter_eq_nil_iff.mpr hall
    unfold frameMissingMessages
    rw [hfilter]
    split <;> rfl
  · intro hone hlt
    rw [countP_e7004_visit]
    have hf : frameMissingFor n (Inferred.funcdef fd) = false := by
      have hd : decide (n.args.length ≤ fd.argnames.indexOf "frame")
          = false := by
        simp only [decide_eq_false_iff_not]
        omega
      simp [frameMissingFor, hd]
    unfold frameMissingMessages
    rw [hone]
    simp [List.filter, hf]

/-- C5 witness: in a FrameObject property, `self.foo(1)` resolving to a
definition with `frame` at position 2, called with one positional argument
and no `frame` keyword, gets the E7004 diagnostic. -/
theorem c5_frame_missing_witness :
    Diagnostic.e7004 "self.foo(1)" ∈ visit_callfunc
      { func := ExprNode.mk "self.foo"
          (some [ Inferred.funcdef
            ⟨"foo", "Page", "tests", ["self", "image", "frame"]⟩]) none
        args := [ExprNode.mk "1" (some []) none]
        keywords := []
        parent := ParentKind.exprStmt
        asString := "self.foo(1)"
        ctx := [ CtxNode.funcdef ["__builtin__.property"],
                CtxNode.classdef ["stbt.FrameObject"]] } :=
  (c5_frame_missing _ ⟨"foo", "Page", "tests", ["self", "image", "frame"]⟩
    (by decide) (by decide) (by decide) (by decide)).1 (by decide)

/-- C6 counterexample: for a node inside a non-property function that is
nested inside a property-decorated function, `_in_property` returns true,
while the claimed judge-by-the-innermost-function walk returns false: the
code keeps walking past function definitions without the decorator. -/
theorem c6_counterexample :
    _in_property
        [CtxNode.funcdef [], CtxNode.funcdef ["__builtin__.property"]] =
      true ∧
    inPropertyInnermost
        [CtxNode.funcdef [], CtxNode.funcdef ["__builtin__.property"]] =
      false := by
  decide

/-- C6 (amended): `_in_property` walks all parent links and returns true iff
SOME enclosing function definition carries the `__builtin__.property`
decorator; with no enclosing function definition it returns false. -/
theorem c6_in_property_any (l : List CtxNode) :
    _in_property l = true ↔
      ∃ decs, CtxNode.funcdef decs ∈ l ∧ "__builtin__.property" ∈ decs := by
  induction l with
  | nil => simp [_in_property]
  | cons c rest ih =>
      cases c with
      | classdef q => simp [_in_property, ih]
      | funcdef decs =>
          by_cases hd : "__builtin__.property" ∈ decs
          · constructor
            · intro _
              exact ⟨decs, List.mem_cons_self _ _, hd⟩
            · intro _
              simp [_in_property, hd]
          · simp only [_in_property, if_neg hd, ih]
            constructor
            · rintro ⟨ds, hds, hdp⟩
              exact ⟨ds, List.mem_cons_of_mem _ hds, hdp⟩
            · rintro ⟨ds, hds, hdp⟩
              rcases List.mem_cons.mp hds with heq | hmem
              · cases heq
                exact absurd hdp hd
              · exact ⟨ds, hmem, hdp⟩
      | otherNode => simp [_in_property, ih]

/-- C7 counterexample: for a node inside a non-marker class that is nested
inside a class inheriting `stbt.FrameObject`, `_in_frameobject` returns
true, while the claimed judge-by-the-innermost-class walk returns false:
the code keeps walking past class definitions without the marker base. -/
theorem c7_counterexample :
    _in_frameobject
        [CtxNode.classdef [], CtxNode.classdef ["stbt.FrameObject"]] =
      true ∧
    inFrameobjectInnermost
        [CtxNode.classdef [], CtxNode.classdef ["stbt.FrameObject"]] =
      false := by
  decide

/-- C7 (amended): `_in_frameobject` walks all parent links and returns true
iff SOME enclosing class definition has `stbt.FrameObject` among its
transitive ancestors' qualified names; with no enclosing class definition it
returns false. -/
theorem c7_in_frameobject_any (l : List CtxNode) :
    _in_frameobject l = true ↔
      ∃ qs, CtxNode.classdef qs ∈ l ∧ "stbt.FrameObject" ∈ qs := by
  induction l with
  | nil => simp [_in_frameobject]
  | cons c rest ih =>
      cases c with
      | funcdef d => simp [_in_frameobject, ih]
      | classdef qs =>
          by_cases hq : "stbt.FrameObject" ∈ qs
          · constructor
            · intro _
              exact ⟨qs, List.mem_cons_self _ _, hq⟩
            · intro _
              simp [_in_frameobject, hq]
          · simp only [_in_frameobject, if_neg hq, ih]
            constructor
            · rintro ⟨ds, hds, hdp⟩
              exact ⟨ds, List.mem_cons_of_mem _ hds, hdp⟩
            · rintro ⟨ds, hds, hdp⟩
              rcases List.mem_cons.mp hds with heq | hmem
              · cases heq
                exact absurd hdp hq
              · exact ⟨ds, hmem, hdp⟩
      | otherNode => simp [_in_frameobject, ih]

/-- C8: when inference yields at least one candidate, `_is_callable` is true
iff some candidate answers `callable()`; when inference yields nothing, it
is true iff the node is a call whose callee `_is_function_named` identifies
as `functools.partial`. -/
theorem c8_is_callable_spec (a : ExprNode) :
    (_infer a ≠ [] →
      (_is_callable a = true ↔ ∃ i, i ∈ _infer a ∧ i.callable = true)) ∧
    (_infer a = [] →
      (_is_callable a = true ↔
        ∃ f, a.callFunc = some f ∧
          _is_function_named f "functools.partial" = true)) := by
  constructor
  · intro hne
    have hempty : (_infer a).isEmpty = false := by
      cases hi : _infer a with
      | nil => exact absurd hi hne
      | cons x t => simp [List.isEmpty]
    simp [_is_callable, hempty, List.any_eq_true]
  · intro hnil
    have hempty : (_infer a).isEmpty = true := by
      rw [hnil]
      rfl
    cases hc : a.callFunc with
    | none => simp [_is_callable, hempty, hc]
    | some f => simp [_is_callable, hempty, hc]

/-- C8 witness: an argument inferring to a callable candidate is callable;
an argument inferring to nothing but written as a `functools.partial(...)`
call is callable too. -/
theorem c8_is_callable_spec_witness :
    _is_callable (ExprNode.mk "f" (some [Inferred.other "m" true]) none) =
      true ∧
    _is_callable (ExprNode.mk "functools.partial(g)" none
        (some (ExprNode.mk "functools.partial" none none))) = true :=
  ⟨((c8_is_callable_spec
        (ExprNode.mk "f" (some [Inferred.other "m" true]) none)).1
      (by decide)).mpr ⟨Inferred.other "m" true, by decide, rfl⟩,
   ((c8_is_callable_spec
        (ExprNode.mk "functools.partial(g)" none
          (some (ExprNode.mk "functools.partial" none none)))).2
      rfl).mpr ⟨ExprNode.mk "functools.partial" none none, rfl, by decide⟩⟩

/-- C9: `_infer` never yields the `YES` sentinel; a resolver exception gives
the empty sequence; and a call whose callee resolves to no candidate gets no
E7002 and no E7004 diagnostic (the rules needing resolution for an
affirmative match stay silent). -/
theorem c9_infer_sanitized (e : ExprNode) (n : CallNode) :
    Inferred.yes ∉ _infer e ∧
    (e.inferRaw = none → _infer e = []) ∧
    (_infer n.func = [] →
      (visit_callfunc n).countP isE7002 = 0 ∧
      (visit_callfunc n).countP isE7004 = 0) := by
  refine ⟨?_, ?_, ?_⟩
  · unfold _infer
    cases e.inferRaw with
    | none => simp
    | some l =>
        intro hmem
        rcases List.mem_filter.mp hmem with ⟨_, hadv⟩
        simp [Inferred.isYes] at hadv
  · intro h
    simp [_infer, h]
  · intro hinf
    constructor
    · rw [countP_e7002_visit]
      have hnil : unusedReturnMessages n = [] := by
        cases hp : n.parent <;> simp [unusedReturnMessages, hp, hinf]
      rw [hnil]
      rfl
    · rw [countP_e7004_visit]
      have hnil : frameMissingMessages n = [] := by
        unfold frameMissingMessages
        rw [hinf]
        split <;> rfl
      rw [hnil]
      rfl

/-- C9 witness: an expression whose resolver raises yields the empty
candidate sequence, and a call with an unresolvable callee yields no E7002
and no E7004 diagnostic. -/
theorem c9_infer_sanitized_witness :
    _infer (ExprNode.mk "broken" none none) = [] ∧
    (visit_callfunc
        { func := ExprNode.mk "stbt.match" none none
          args := []
          keywords := []
          parent := ParentKind.exprStmt
          asString := "stbt.match()"
          ctx := [] }).countP isE7002 = 0 :=
  ⟨(c9_infer_sanitized (ExprNode.mk "broken" none none)
      { func := ExprNode.mk "stbt.match" none none
        args := []
        keywords := []
        parent := ParentKind.exprStmt
        asString := "stbt.match()"
        ctx := [] }).2.1 rfl,
   ((c9_infer_sanitized (ExprNode.mk "broken" none none)
      { func := ExprNode.mk "stbt.match" none none
        args := []
        keywords := []
        parent := ParentKind.exprStmt
        asString := "stbt.match()"
        ctx := [] }).2.2 (by decide)).1⟩

end StbtLint
